/-
Verification of the resilience layer of the meta-mcp repository:
error classification and retry policy (src/utils/error-handler.ts),
the idempotency cache (idempotency module), the per-account rate
limiter (modelled from the design spec; its implementation file is not
part of the sources, only its contract tests), and the call
orchestrator (src/meta-client.ts, makeRequest).

JavaScript runtime values are embedded shallowly: Map objects become
association lists that preserve insertion order, class hierarchies
become a tag enumeration, numbers become Nat or Rat, and Date.now()
becomes an explicit parameter.
-/
import Mathlib

namespace MetaMcp

/-! ## Association-list model of a JavaScript Map

`Map.get`, `Map.set` (replace in place, else append at the end) and
`Map.delete` (remove the unique binding) over a list of key-value
pairs kept in insertion order. -/

def mapGet {β : Type} : List (String × β) → String → Option β
  | [], _ => none
  | (k2, e) :: rest, k => if k2 = k then some e else mapGet rest k

def mapSet {β : Type} : List (String × β) → String → β → List (String × β)
  | [], k, e => [(k, e)]
  | (k2, e2) :: rest, k, e =>
      if k2 = k then (k, e) :: rest else (k2, e2) :: mapSet rest k e

def mapDelete {β : Type} : List (String × β) → String → List (String × β)
  | [], _ => []
  | (k2, e2) :: rest, k => if k2 = k then rest else (k2, e2) :: mapDelete rest k

theorem mapGet_mapSet_self {β : Type} (c : List (String × β)) (k : String) (e : β) :
    mapGet (mapSet c k e) k = some e := by
  induction c with
  | nil => simp [mapGet, mapSet]
  | cons hd tl ih =>
      by_cases h : hd.1 = k
      · simp [mapSet, h, mapGet]
      · simpa [mapSet, h, mapGet] using ih

theorem mapGet_mapSet_ne {β : Type} (c : List (String × β)) (k k2 : String) (e : β)
    (h : k ≠ k2) : mapGet (mapSet c k e) k2 = mapGet c k2 := by
  induction c with
  | nil => simp [mapGet, mapSet, h]
  | cons hd tl ih =>
      by_cases h2 : hd.1 = k
      · simp [mapSet, h2, mapGet, h]
      · simp [mapSet, h2, mapGet]
        split <;> simp_all [mapGet]

/-! ## Error model

The TypeScript code dispatches on the class of a thrown error
(`instanceof`), on its `name`, on a transport-level `code` property and
on the structured fields of `MetaApiProcessingError`.  `ErrClass` is the
runtime class tag; the subclass relation of `MetaApiProcessingError` is
`isMetaApiProcessingError` below. -/

inductive ErrClass where
  | rateLimitError
  | metaAuth
  | metaPermission
  | metaValidation
  | metaAppLimit
  | metaUserLimit
  | metaProcessing
  | generic
deriving DecidableEq, Repr

structure JsError where
  cls : ErrClass
  name : String
  message : String
  code : Option String := none
  httpStatus : Option Nat := none
  errorCode : Option Nat := none
  errorSubcode : Option Nat := none
  errorType : Option String := none
  retryAfterMs : ℚ := 0
deriving DecidableEq, Repr

/-- Constructor of `RateLimitError` (rate-limiter module): stores the
message and the `retryAfterMs` wait and sets `name`. -/
def mkRateLimitError (message : String) (retryAfterMs : ℚ) : JsError :=
  { cls := ErrClass.rateLimitError, name := "RateLimitError",
    message := message, retryAfterMs := retryAfterMs }

/-- Constructor of `MetaApiProcessingError` (error-handler.ts). -/
def mkMetaApiProcessingError (message : String) (httpStatus : Option Nat)
    (errorCode : Option Nat) (errorSubcode : Option Nat)
    (errorType : Option String) : JsError :=
  { cls := ErrClass.metaProcessing, name := "MetaApiError", message := message,
    httpStatus := httpStatus, errorCode := errorCode,
    errorSubcode := errorSubcode, errorType := errorType }

/-- Constructor of `MetaAuthError`: fixes httpStatus 401. -/
def mkMetaAuthError (message : String) (errorCode : Option Nat)
    (errorSubcode : Option Nat) : JsError :=
  { cls := ErrClass.metaAuth, name := "MetaAuthError", message := message,
    httpStatus := some 401, errorCode := errorCode,
    errorSubcode := errorSubcode, errorType := some "OAuthException" }

/-- Constructor of `MetaPermissionError`: fixes httpStatus 403. -/
def mkMetaPermissionError (message : String) (errorCode : Option Nat)
    (errorSubcode : Option Nat) : JsError :=
  { cls := ErrClass.metaPermission, name := "MetaPermissionError",
    message := message, httpStatus := some 403, errorCode := errorCode,
    errorSubcode := errorSubcode, errorType := some "FacebookApiException" }

/-- Constructor of `MetaValidationError`: fixes httpStatus 400. -/
def mkMetaValidationError (message : String) (errorCode : Option Nat)
    (errorSubcode : Option Nat) : JsError :=
  { cls := ErrClass.metaValidation, name := "MetaValidationError",
    message := message, httpStatus := some 400, errorCode := errorCode,
    errorSubcode := errorSubcode, errorType := some "FacebookApiException" }

/-- Constructor of `MetaApplicationLimitError`: fixes httpStatus 429. -/
def mkMetaApplicationLimitError (message : String) (errorCode : Option Nat)
    (errorSubcode : Option Nat) : JsError :=
  { cls := ErrClass.metaAppLimit, name := "MetaApplicationLimitError",
    message := message, httpStatus := some 429, errorCode := errorCode,
    errorSubcode := errorSubcode,
    errorType := some "ApplicationRequestLimitReached" }

/-- Constructor of `MetaUserLimitError`: fixes httpStatus 429. -/
def mkMetaUserLimitError (message : String) (errorCode : Option Nat)
    (errorSubcode : Option Nat) : JsError :=
  { cls := ErrClass.metaUserLimit, name := "MetaUserLimitError",
    message := message, httpStatus := some 429, errorCode := errorCode,
    errorSubcode := errorSubcode, errorType := some "UserRequestLimitReached" }

def RETRYABLE_NETWORK_ERROR_CODES : List String :=
  ["ECONNRESET", "ECONNREFUSED", "EHOSTUNREACH", "ENETDOWN", "ENETUNREACH",
   "ETIMEDOUT", "EAI_AGAIN"]

def isTransientNetworkError (e : JsError) : Bool :=
  e.name = "FetchError" || e.name = "AbortError" ||
    (match e.code with
     | some c => RETRYABLE_NETWORK_ERROR_CODES.contains c
     | none => false)

/-- `error instanceof MetaApiProcessingError`, subclasses included. -/
def isMetaApiProcessingError (e : JsError) : Bool :=
  match e.cls with
  | ErrClass.metaProcessing | ErrClass.metaAuth | ErrClass.metaPermission
  | ErrClass.metaValidation | ErrClass.metaAppLimit
  | ErrClass.metaUserLimit => true
  | _ => false

/-- `MetaApiErrorHandler.shouldRetry`.  `(error.httpStatus || 0)` is
`httpStatus.getD 0` (undefined and 0 are both falsy). -/
def shouldRetry (e : JsError) : Bool :=
  if e.cls = ErrClass.rateLimitError then true
  else if e.cls = ErrClass.metaAppLimit then true
  else if e.cls = ErrClass.metaUserLimit then true
  else if isTransientNetworkError e then true
  else if isMetaApiProcessingError e then
    if 500 ≤ e.httpStatus.getD 0 then true
    else decide (e.httpStatus = some 429)
  else false

/-- `MetaApiErrorHandler.getMaxRetries`. -/
def getMaxRetries (e : JsError) : Nat :=
  if e.cls = ErrClass.rateLimitError then 3
  else if e.cls = ErrClass.metaAppLimit then 2
  else if e.cls = ErrClass.metaUserLimit then 2
  else if isTransientNetworkError e then 3
  else if isMetaApiProcessingError e && 500 ≤ e.httpStatus.getD 0 then 3
  else if isMetaApiProcessingError e && e.httpStatus = some 429 then 3
  else 0

/-- `MetaApiErrorHandler.getRetryDelay`.  `Math.random()` is the
parameter `rand`; callers constrain it to `[0, 1)`. -/
def getRetryDelay (e : JsError) (attempt : Nat) (rand : ℚ) : ℚ :=
  if e.cls = ErrClass.rateLimitError then e.retryAfterMs
  else min (1000 * 2 ^ attempt) 60000 + rand * 1000

/-- `MetaApiErrorHandler.createSpecificError`: the (code, subcode)
classification table, matched top to bottom. -/
def createSpecificError (code : Nat) (error_subcode : Option Nat)
    (message : String) (type : Option String) (retryAfterMs : Option ℚ) :
    JsError :=
  if code = 17 ∧ error_subcode = some 2446079 then
    mkRateLimitError message (retryAfterMs.getD 300000)
  else if code = 613 ∧ error_subcode = some 1487742 then
    mkRateLimitError message (retryAfterMs.getD 60000)
  else if code = 4 ∧ (error_subcode = some 1504022 ∨ error_subcode = some 1504039) then
    mkRateLimitError message (retryAfterMs.getD 300000)
  else if code = 190 then mkMetaAuthError message (some code) error_subcode
  else if code = 200 ∨ code = 10 then
    mkMetaPermissionError message (some code) error_subcode
  else if code = 100 then mkMetaValidationError message (some code) error_subcode
  else if code = 4 then
    mkMetaApplicationLimitError message (some code) error_subcode
  else if code = 17 then mkMetaUserLimitError message (some code) error_subcode
  else mkMetaApiProcessingError message none (some code) error_subcode type

/-! ## Idempotency cache

From the idempotency module: `IdempotencyCache` with `get`, `set`,
`evictOldest`, and the `withIdempotency` wrapper.  Stored results are
JavaScript values; `JsValue.null` is the JavaScript `null` that `get`
also returns on a miss. -/

inductive JsValue where
  | null
  | str (s : String)
  | num (n : Int)
deriving DecidableEq, Repr

def DEFAULT_TTL_MS : Nat := 24 * 60 * 60 * 1000

def MAX_CACHE_SIZE : Nat := 10000

structure CacheEntry where
  result : JsValue
  expiresAt : Nat
  createdAt : Nat
  operation : String
deriving DecidableEq, Repr

abbrev IdemCache := List (String × CacheEntry)

/-- `IdempotencyCache.get`: miss and expired entries both yield `null`;
an expired entry is deleted on access. -/
def cacheGet (c : IdemCache) (k : String) (now : Nat) : JsValue × IdemCache :=
  match mapGet c k with
  | none => (JsValue.null, c)
  | some e =>
      if e.expiresAt < now then (JsValue.null, mapDelete c k)
      else (e.result, c)

/-- Comparison used by `evictOldest`: ascending `createdAt`
(`sort((a, b) => a[1].createdAt - b[1].createdAt)`). -/
def olderFirst (a b : String × CacheEntry) : Prop :=
  a.2.createdAt ≤ b.2.createdAt

instance : DecidableRel olderFirst := fun a b =>
  Nat.decLe a.2.createdAt b.2.createdAt

/-- `IdempotencyCache.evictOldest`: stable-sort the entries by
`createdAt` ascending, delete the first `count` of them. -/
def evictOldest (c : IdemCache) (count : Nat) : IdemCache :=
  let victims := (List.insertionSort olderFirst c).take count
  victims.foldl (fun acc p => mapDelete acc p.1) c

/-- `IdempotencyCache.set`: evict the oldest 10% of `MAX_CACHE_SIZE`
entries when the cache is full, then store the entry. -/
def cacheSet (c : IdemCache) (k : String) (result : JsValue)
    (operation : String) (now ttl : Nat) : IdemCache :=
  let c1 := if MAX_CACHE_SIZE ≤ c.length
            then evictOldest c (MAX_CACHE_SIZE / 10) else c
  mapSet c1 k ⟨result, now + ttl, now, operation⟩

structure IdemOutcome where
  result : JsValue
  requestId : String
  cached : Bool
  /-- how many times this call invoked `execute` -/
  execCount : Nat
  cache : IdemCache
deriving DecidableEq, Repr

/-- `withIdempotency`: look the key up (generating one when absent —
`key || generateIdempotencyKey(operation)`, so the empty string also
generates); a non-null cached value is returned with `cached = true`
and `execute` is not invoked; otherwise `execute` runs once and its
result is stored. -/
def withIdempotency (key : Option String) (genKey : String)
    (operation : String) (execute : JsValue) (now ttl : Nat)
    (c : IdemCache) : IdemOutcome :=
  let requestId := match key with
    | some k => if k = "" then genKey else k
    | none => genKey
  let looked := cacheGet c requestId now
  if looked.1 = JsValue.null then
    let c2 := cacheSet looked.2 requestId execute operation now ttl
    ⟨execute, requestId, false, 1, c2⟩
  else
    ⟨looked.1, requestId, true, 0, looked.2⟩

/-! ## Rate limiter

Modelled from the spec: the file `rate-limiter.ts` (class `RateLimiter`,
`checkRateLimit`, the tier constants and the introspection operations)
is not among the sources — only its contract tests are — so the
definitions below follow the design spec, section 4.1, word by word:
lazy linear decay of the score to zero over `decayTimeMs`, an existing
`blockedUntil` window rejects immediately with `retryAfterMs =
blockedUntil - now`, otherwise the call cost is added and a score
strictly over `maxScore` blocks the account for `blockTimeMs`. -/

structure RateLimitTier where
  maxScore : ℚ
  decayTimeMs : ℚ
  blockTimeMs : ℚ
  readCallScore : ℚ
  writeCallScore : ℚ
deriving DecidableEq, Repr

/-- Modelled from the spec: low-ceiling development tier
(maxScore=60, decay window=5min, block=5min). -/
def DEVELOPMENT_TIER : RateLimitTier :=
  { maxScore := 60, decayTimeMs := 300000, blockTimeMs := 300000,
    readCallScore := 1, writeCallScore := 3 }

/-- Modelled from the spec: high-ceiling standard tier
(maxScore=9000, decay window=5min, block=1min). -/
def STANDARD_TIER : RateLimitTier :=
  { maxScore := 9000, decayTimeMs := 300000, blockTimeMs := 60000,
    readCallScore := 1, writeCallScore := 3 }

structure UsageRecord where
  score : ℚ
  lastUpdated : ℚ
  blockedUntil : Option ℚ
deriving DecidableEq, Repr

abbrev RLState := List (String × UsageRecord)

/-- Modelled from the spec: linear decay of the stored score to zero
over `decayTimeMs`, computed lazily from elapsed time, never negative. -/
def decayedScore (tier : RateLimitTier) (r : UsageRecord) (now : ℚ) : ℚ :=
  let elapsed := now - r.lastUpdated
  if tier.decayTimeMs ≤ elapsed then 0
  else max 0 (r.score * (tier.decayTimeMs - elapsed) / tier.decayTimeMs)

def callCost (tier : RateLimitTier) (isWrite : Bool) : ℚ :=
  if isWrite then tier.writeCallScore else tier.readCallScore

inductive RLResult where
  | allowed
  | rateLimited (retryAfterMs : ℚ)
deriving DecidableEq, Repr

/-- Modelled from the spec: `checkRateLimit(accountKey, isWrite)`.
An unknown key behaves as score 0; a live `blockedUntil` window fails
immediately; landing exactly at `maxScore` is allowed and the call that
pushes strictly over it is rejected and blocks the account. -/
def checkRateLimit (tier : RateLimitTier) (st : RLState) (key : String)
    (isWrite : Bool) (now : ℚ) : RLResult × RLState :=
  let r := (mapGet st key).getD ⟨0, now, none⟩
  match r.blockedUntil with
  | some b =>
      if now < b then (RLResult.rateLimited (b - now), st)
      else
        let s := decayedScore tier r now + callCost tier isWrite
        if tier.maxScore < s then
          (RLResult.rateLimited tier.blockTimeMs,
           mapSet st key ⟨decayedScore tier r now, now, some (now + tier.blockTimeMs)⟩)
        else (RLResult.allowed, mapSet st key ⟨s, now, none⟩)
  | none =>
      let s := decayedScore tier r now + callCost tier isWrite
      if tier.maxScore < s then
        (RLResult.rateLimited tier.blockTimeMs,
         mapSet st key ⟨decayedScore tier r now, now, some (now + tier.blockTimeMs)⟩)
      else (RLResult.allowed, mapSet st key ⟨s, now, none⟩)

/-- Modelled from the spec: `getCurrentScore` reads the decayed score. -/
def getCurrentScore (tier : RateLimitTier) (st : RLState) (key : String)
    (now : ℚ) : ℚ :=
  match mapGet st key with
  | none => 0
  | some r => decayedScore tier r now

/-- Modelled from the spec: `getRemainingCapacity`. -/
def getRemainingCapacity (tier : RateLimitTier) (st : RLState) (key : String)
    (now : ℚ) : ℚ :=
  tier.maxScore - getCurrentScore tier st key now

/-- Modelled from the spec: `isAccountBlocked`. -/
def isAccountBlocked (st : RLState) (key : String) (now : ℚ) : Bool :=
  match mapGet st key with
  | none => false
  | some r =>
      match r.blockedUntil with
      | none => false
      | some b => decide (now < b)

/-- State after `n` read checks for `key`, all at time `now`, starting
from the empty state. -/
def stateAfterReads (tier : RateLimitTier) (key : String) (now : ℚ) :
    Nat → RLState
  | 0 => []
  | n + 1 =>
      (checkRateLimit tier (stateAfterReads tier key now n) key false now).2

/-- Apply a sequence of checks for one key; each element of `ops` is
`(isWrite, now)`. -/
def applyChecks (tier : RateLimitTier) (key : String) :
    List (Bool × ℚ) → RLState → RLState
  | [], st => st
  | (w, t) :: rest, st =>
      applyChecks tier key rest (checkRateLimit tier st key w t).2

/-! ## Retry loop and orchestrator

`retryWithBackoff` (error-handler.ts) as a fuel-indexed loop: `op n` is
the outcome of attempt number `n` (0-based), `attemptsMade` counts how
many times `op` ran.  The fuel passed by `retryWithBackoff` strictly
exceeds any reachable retry ceiling, so the fuel-exhausted branch is
unreachable. -/

structure RetryOutcome (α : Type) where
  result : Except JsError α
  attemptsMade : Nat
deriving Repr

def retryGo {α : Type} (op : Nat → Except JsError α)
    (maxRetriesOpt : Option Nat) : (attempt fuel : Nat) → RetryOutcome α
  | attempt, 0 =>
      ⟨Except.error (mkMetaApiProcessingError "out of fuel" none none none none),
       attempt⟩
  | attempt, fuel + 1 =>
      match op attempt with
      | Except.ok v => ⟨Except.ok v, attempt + 1⟩
      | Except.error e =>
          if shouldRetry e = false then ⟨Except.error e, attempt + 1⟩
          else
            let m := maxRetriesOpt.getD (getMaxRetries e)
            if m < attempt + 1 then ⟨Except.error e, attempt + 1⟩
            else retryGo op maxRetriesOpt (attempt + 1) fuel

def retryWithBackoff {α : Type} (op : Nat → Except JsError α)
    (maxRetriesOpt : Option Nat) : RetryOutcome α :=
  retryGo op maxRetriesOpt 0 (maxRetriesOpt.getD 3 + 1)

/-- `MetaApiClient.makeRequest` (meta-client.ts), resilience skeleton:
when an account id is supplied the rate limit is checked first, before
`retryWithBackoff` is entered; a rate-limit rejection is returned
without any attempt of the wrapped operation. -/
def makeRequest {α : Type} (tier : RateLimitTier) (st : RLState)
    (accountId : Option String) (isWrite : Bool) (now : ℚ)
    (op : Nat → Except JsError α) (maxRetriesOpt : Option Nat) :
    RetryOutcome α × RLState :=
  match accountId with
  | none => (retryWithBackoff op maxRetriesOpt, st)
  | some acct =>
      match checkRateLimit tier st acct isWrite now with
      | (RLResult.rateLimited retryMs, st2) =>
          (⟨Except.error (mkRateLimitError "Rate limit exceeded" retryMs), 0⟩, st2)
      | (RLResult.allowed, st2) => (retryWithBackoff op maxRetriesOpt, st2)

/-! ## Helper lemmas for the idempotency cache -/

theorem cacheGet_of_mapGet_none (c : IdemCache) (k : String) (now : Nat)
    (h : mapGet c k = none) : cacheGet c k now = (JsValue.null, c) := by
  simp [cacheGet, h]

theorem mapGet_cacheSet_self (c : IdemCache) (k : String) (v : JsValue)
    (op2 : String) (now ttl : Nat) :
    mapGet (cacheSet c k v op2 now ttl) k = some ⟨v, now + ttl, now, op2⟩ := by
  unfold cacheSet
  exact mapGet_mapSet_self _ k _

theorem cacheGet_cacheSet_live (c : IdemCache) (k : String) (v : JsValue)
    (op2 : String) (now ttl now2 : Nat) (h : now2 ≤ now + ttl) :
    cacheGet (cacheSet c k v op2 now ttl) k now2 =
      (v, cacheSet c k v op2 now ttl) := by
  unfold cacheGet
  rw [mapGet_cacheSet_self]
  simp [Nat.not_lt.mpr h]

theorem withIdempotency_miss (k gen op2 : String) (r : JsValue) (now ttl : Nat)
    (c : IdemCache) (hk : k ≠ "") (h : cacheGet c k now = (JsValue.null, c)) :
    withIdempotency (some k) gen op2 r now ttl c =
      ⟨r, k, false, 1, cacheSet c k r op2 now ttl⟩ := by
  unfold withIdempotency
  simp [hk, h]

theorem withIdempotency_hit (k gen op2 : String) (r r2 : JsValue)
    (now ttl : Nat) (c c2 : IdemCache) (hk : k ≠ "") (hr : r ≠ JsValue.null)
    (h : cacheGet c k now = (r, c2)) :
    withIdempotency (some k) gen op2 r2 now ttl c = ⟨r, k, true, 0, c2⟩ := by
  unfold withIdempotency
  simp [hk, h, hr]

/-! ## Claim theorems: idempotency (C1, C10) -/

def c1NullFirst : IdemOutcome :=
  withIdempotency (some "k") "gen" "op" JsValue.null 0 1000 []

def c1NullSecond : IdemOutcome :=
  withIdempotency (some "k") "gen" "op" JsValue.null 500 1000 c1NullFirst.cache

/-- Claim C1, counterexample: with `execute` returning `null` (key
`"k"`, first call at time 0, second at time 500, TTL 1000), the second
call does not return `cached = true`: it invokes `execute` again and
returns `cached = false`, so `execute` is not invoked exactly once. -/
theorem C1_counterexample :
    c1NullFirst.execCount = 1 ∧ c1NullSecond.cached = false ∧
      c1NullSecond.execCount = 1 := by
  decide

/-- Claim C1 (amended: the guarantee holds for executes whose result is
not `null`): for every key, operation and non-null result, two
`withIdempotency` calls with the same key — the first on a cache without
the key, the second while the stored entry is unexpired — invoke
`execute` exactly once in total, and the second call returns
`cached = true` with a result identical to the first call's result,
without invoking its own execute function. -/
theorem C1_idempotency_dedup (k gen1 gen2 op1 : String) (r r2 : JsValue)
    (now1 now2 ttl : Nat) (c0 : IdemCache) (hk : k ≠ "")
    (hmiss : mapGet c0 k = none) (hr : r ≠ JsValue.null)
    (hlive : now2 ≤ now1 + ttl) :
    (withIdempotency (some k) gen1 op1 r now1 ttl c0).execCount = 1 ∧
    (withIdempotency (some k) gen1 op1 r now1 ttl c0).cached = false ∧
    (withIdempotency (some k) gen2 op1 r2 now2 ttl
        (withIdempotency (some k) gen1 op1 r now1 ttl c0).cache).execCount = 0 ∧
    (withIdempotency (some k) gen2 op1 r2 now2 ttl
        (withIdempotency (some k) gen1 op1 r now1 ttl c0).cache).cached = true ∧
    (withIdempotency (some k) gen2 op1 r2 now2 ttl
        (withIdempotency (some k) gen1 op1 r now1 ttl c0).cache).result =
      (withIdempotency (some k) gen1 op1 r now1 ttl c0).result := by
  have hfirst := withIdempotency_miss k gen1 op1 r now1 ttl c0 hk
    (cacheGet_of_mapGet_none c0 k now1 hmiss)
  have hsecond := withIdempotency_hit k gen2 op1 r r2 now2 ttl
    (cacheSet c0 k r op1 now1 ttl) (cacheSet c0 k r op1 now1 ttl) hk hr
    (cacheGet_cacheSet_live c0 k r op1 now1 ttl now2 hlive)
  rw [hfirst]
  rw [show (IdemOutcome.mk r k false 1 (cacheSet c0 k r op1 now1 ttl)).cache =
        cacheSet c0 k r op1 now1 ttl from rfl, hsecond]
  exact ⟨rfl, rfl, rfl, rfl, rfl⟩

/-- Witness for C1: the amended theorem applied at key `"k"`,
result `7`, first call at time 0, second at time 400, TTL 1000. -/
theorem C1_idempotency_dedup_witness :
    (withIdempotency (some "k") "g1" "op" (JsValue.num 7) 0 1000 []).execCount = 1 ∧
    (withIdempotency (some "k") "g1" "op" (JsValue.num 7) 0 1000 []).cached = false ∧
    (withIdempotency (some "k") "g2" "op" (JsValue.num 9) 400 1000
        (withIdempotency (some "k") "g1" "op" (JsValue.num 7) 0 1000 []).cache).execCount = 0 ∧
    (withIdempotency (some "k") "g2" "op" (JsValue.num 9) 400 1000
        (withIdempotency (some "k") "g1" "op" (JsValue.num 7) 0 1000 []).cache).cached = true ∧
    (withIdempotency (some "k") "g2" "op" (JsValue.num 9) 400 1000
        (withIdempotency (some "k") "g1" "op" (JsValue.num 7) 0 1000 []).cache).result =
      (withIdempotency (some "k") "g1" "op" (JsValue.num 7) 0 1000 []).result :=
  C1_idempotency_dedup "k" "g1" "g2" "op" (JsValue.num 7) (JsValue.num 9)
    0 400 1000 [] (by decide) (by decide) (by decide) (by decide)

/-- Claim C10: a stored `null` result is indistinguishable from a miss —
whenever the lookup yields `null` (in particular after a completed
operation stored `null`, while that entry is live), `withIdempotency`
invokes `execute` again and returns `cached = false`; and storing `null`
does make every later unexpired lookup yield `null`. -/
theorem C10_null_result_not_deduplicated :
    (∀ (k gen op2 : String) (r2 : JsValue) (c : IdemCache) (now ttl : Nat),
       k ≠ "" → (cacheGet c k now).1 = JsValue.null →
       (withIdempotency (some k) gen op2 r2 now ttl c).cached = false ∧
       (withIdempotency (some k) gen op2 r2 now ttl c).execCount = 1) ∧
    (∀ (k op2 : String) (c : IdemCache) (now ttl now2 : Nat),
       now2 ≤ now + ttl →
       (cacheGet (cacheSet c k JsValue.null op2 now ttl) k now2).1 =
         JsValue.null) := by
  constructor
  · intro k gen op2 r2 c now ttl hk hnull
    unfold withIdempotency
    simp [hk, hnull]
  · intro k op2 c now ttl now2 h
    rw [cacheGet_cacheSet_live c k JsValue.null op2 now ttl now2 h]

/-- Witness for C10: key `"k"` with a stored `null` result at time 0,
looked up again at time 500 with TTL 1000. -/
theorem C10_null_result_not_deduplicated_witness :
    ((withIdempotency (some "k") "g" "op" (JsValue.num 3) 500 1000
        (cacheSet [] "k" JsValue.null "op" 0 1000)).cached = false ∧
     (withIdempotency (some "k") "g" "op" (JsValue.num 3) 500 1000
        (cacheSet [] "k" JsValue.null "op" 0 1000)).execCount = 1) ∧
    (cacheGet (cacheSet [] "k" JsValue.null "op" 0 1000) "k" 500).1 =
      JsValue.null :=
  ⟨C10_null_result_not_deduplicated.1 "k" "g" "op" (JsValue.num 3)
      (cacheSet [] "k" JsValue.null "op" 0 1000) 500 1000 (by decide)
      (C10_null_result_not_deduplicated.2 "k" "op" [] 0 1000 500 (by decide)),
   C10_null_result_not_deduplicated.2 "k" "op" [] 0 1000 500 (by decide)⟩

/-! ## Claim theorems: retry policy and classification (C2, C3, C5, C8) -/

/-- Claim C2: `shouldRetry e` is true exactly when `e` is a rate-limit
error, an application-level request-limit error, a user-level
request-limit error, a transient network error, or a processing error
(any member of the `MetaApiProcessingError` hierarchy) whose HTTP
status is at least 500 or equal to 429; and the decision never depends
on the message text. -/
theorem C2_shouldRetry_characterization (e : JsError) :
    (shouldRetry e = true ↔
      (e.cls = ErrClass.rateLimitError ∨ e.cls = ErrClass.metaAppLimit ∨
       e.cls = ErrClass.metaUserLimit ∨ isTransientNetworkError e = true ∨
       (isMetaApiProcessingError e = true ∧
         (500 ≤ e.httpStatus.getD 0 ∨ e.httpStatus = some 429)))) ∧
    (∀ m : String, shouldRetry { e with message := m } = shouldRetry e) := by
  constructor
  · unfold shouldRetry
    split_ifs with h1 h2 h3 h4 h5 h6 <;> simp_all
  · intro m
    simp [shouldRetry, isTransientNetworkError, isMetaApiProcessingError]

/-- Witness for C2: a rate-limit error is retryable by the
characterization, and changing its message does not change the
decision. -/
theorem C2_shouldRetry_characterization_witness :
    shouldRetry (mkRateLimitError "m" 5) = true ∧
    shouldRetry { mkRateLimitError "m" 5 with message := "x" } =
      shouldRetry (mkRateLimitError "m" 5) :=
  ⟨(C2_shouldRetry_characterization (mkRateLimitError "m" 5)).1.mpr
      (Or.inl rfl),
   (C2_shouldRetry_characterization (mkRateLimitError "m" 5)).2 "x"⟩

/-- Claim C3: the classification table: code 190 yields the
auth-expired error; code 17 with subcode 2446079 yields a rate-limit
error with default `retryAfterMs = 300000` unless a header-supplied
value overrides it; code 100 yields a validation error that is not
retryable; and the specific (code, subcode) rate-limit rows take
priority over the generic code-only rows (17 alone gives the user
limit, 4 alone the application limit). -/
theorem C3_classification_table (msg : String) (sub : Option Nat)
    (ty : Option String) (ra : Option ℚ) :
    (createSpecificError 190 sub msg ty ra).cls = ErrClass.metaAuth ∧
    (createSpecificError 17 (some 2446079) msg ty none).cls =
      ErrClass.rateLimitError ∧
    (createSpecificError 17 (some 2446079) msg ty none).retryAfterMs = 300000 ∧
    (createSpecificError 17 (some 2446079) msg ty (some 7)).retryAfterMs = 7 ∧
    (createSpecificError 100 sub msg ty ra).cls = ErrClass.metaValidation ∧
    shouldRetry (createSpecificError 100 sub msg ty ra) = false ∧
    (createSpecificError 4 (some 1504022) msg ty none).cls =
      ErrClass.rateLimitError ∧
    (createSpecificError 613 (some 1487742) msg ty none).cls =
      ErrClass.rateLimitError ∧
    (createSpecificError 17 (some 5) msg ty ra).cls = ErrClass.metaUserLimit ∧
    (createSpecificError 4 (some 5) msg ty ra).cls = ErrClass.metaAppLimit := by
  refine ⟨?_, ?_, ?_, ?_, ?_, ?_, ?_, ?_, ?_, ?_⟩ <;>
    simp [createSpecificError, mkRateLimitError, mkMetaAuthError,
      mkMetaPermissionError, mkMetaValidationError,
      mkMetaApplicationLimitError, mkMetaUserLimitError,
      mkMetaApiProcessingError, shouldRetry, isTransientNetworkError,
      isMetaApiProcessingError, RETRYABLE_NETWORK_ERROR_CODES]

/-- Witness for C3: the table applied at concrete message and
fields. -/
theorem C3_classification_table_witness :
    (createSpecificError 190 none "m" none none).cls = ErrClass.metaAuth ∧
    (createSpecificError 17 (some 2446079) "m" none none).retryAfterMs =
      300000 :=
  ⟨(C3_classification_table "m" none none none).1,
   (C3_classification_table "m" none none none).2.2.1⟩

/-- Claim C5: `getRetryDelay` returns the carried `retryAfterMs`
verbatim for rate-limit errors (in particular 1500 stays exactly 1500);
for every other error it returns `min(1000 * 2^attempt, 60000)` plus a
jitter `rand * 1000` that lies in `[0, 1000)` whenever
`rand ∈ [0, 1)`. -/
theorem C5_retry_delay (e : JsError) (n : Nat) (rand : ℚ) :
    (e.cls = ErrClass.rateLimitError → getRetryDelay e n rand = e.retryAfterMs) ∧
    (e.cls ≠ ErrClass.rateLimitError → 0 ≤ rand → rand < 1 →
       getRetryDelay e n rand = min (1000 * 2 ^ n) 60000 + rand * 1000 ∧
       min (1000 * 2 ^ n) 60000 ≤ getRetryDelay e n rand ∧
       getRetryDelay e n rand < min (1000 * 2 ^ n) 60000 + 1000) ∧
    (∀ msg : String, getRetryDelay (mkRateLimitError msg 1500) n rand = 1500) := by
  refine ⟨fun h => by simp [getRetryDelay, h], fun h h0 h1 => ?_,
    fun msg => by simp [getRetryDelay, mkRateLimitError]⟩
  have hdel : getRetryDelay e n rand = min (1000 * 2 ^ n) 60000 + rand * 1000 := by
    simp [getRetryDelay, h]
  refine ⟨hdel, ?_, ?_⟩
  · rw [hdel]
    nlinarith
  · rw [hdel]
    nlinarith

/-- Witness for C5: a rate-limit error with `retryAfterMs = 1500`
waits exactly 1500; an auth error at attempt 2 with `rand = 1/2` gets
the backoff `min(1000 * 4, 60000) + 500`. -/
theorem C5_retry_delay_witness :
    getRetryDelay (mkRateLimitError "m" 1500) 2 (1 / 2) = 1500 ∧
    getRetryDelay (mkMetaAuthError "m" none none) 2 (1 / 2) =
      min (1000 * 2 ^ 2) 60000 + (1 / 2) * 1000 :=
  ⟨(C5_retry_delay (mkRateLimitError "m" 1500) 2 (1 / 2)).2.2 "m",
   ((C5_retry_delay (mkMetaAuthError "m" none none) 2 (1 / 2)).2.1
      (by simp [mkMetaAuthError]) (by norm_num) (by norm_num)).1⟩

/-- Claim C8: transport-layer failures are transient and retryable:
every error whose `code` is one of the retryable network codes
(connection reset `ECONNRESET`, refusal, unreachable host or network,
timeout `ETIMEDOUT`, DNS failure `EAI_AGAIN`, ...), and every error
named `FetchError` or `AbortError` (abort/timeout), satisfies
`isTransientNetworkError` and `shouldRetry`. -/
theorem C8_transport_failures_retryable (nm msg : String) (cd : String)
    (hcd : cd ∈ RETRYABLE_NETWORK_ERROR_CODES) :
    (isTransientNetworkError
        ⟨ErrClass.generic, nm, msg, some cd, none, none, none, none, 0⟩ = true ∧
     shouldRetry
        ⟨ErrClass.generic, nm, msg, some cd, none, none, none, none, 0⟩ = true) ∧
    (∀ cdo : Option String,
      isTransientNetworkError
          ⟨ErrClass.generic, "AbortError", msg, cdo, none, none, none, none, 0⟩ = true ∧
      shouldRetry
          ⟨ErrClass.generic, "AbortError", msg, cdo, none, none, none, none, 0⟩ = true) ∧
    (∀ cdo : Option String,
      isTransientNetworkError
          ⟨ErrClass.generic, "FetchError", msg, cdo, none, none, none, none, 0⟩ = true ∧
      shouldRetry
          ⟨ErrClass.generic, "FetchError", msg, cdo, none, none, none, none, 0⟩ = true) := by
  refine ⟨⟨?_, ?_⟩, fun cdo => ⟨?_, ?_⟩, fun cdo => ⟨?_, ?_⟩⟩ <;>
    simp [isTransientNetworkError, shouldRetry, isMetaApiProcessingError] <;>
    tauto

/-- Witness for C8: the concrete transport failures named in the claim —
connection reset, timeout, DNS failure and abort. -/
theorem C8_transport_failures_retryable_witness :
    (isTransientNetworkError
        ⟨ErrClass.generic, "Error", "reset", some "ECONNRESET", none, none, none, none, 0⟩ = true ∧
     shouldRetry
        ⟨ErrClass.generic, "Error", "reset", some "ECONNRESET", none, none, none, none, 0⟩ = true) ∧
    (isTransientNetworkError
        ⟨ErrClass.generic, "Error", "timeout", some "ETIMEDOUT", none, none, none, none, 0⟩ = true) ∧
    (isTransientNetworkError
        ⟨ErrClass.generic, "Error", "dns", some "EAI_AGAIN", none, none, none, none, 0⟩ = true) ∧
    (isTransientNetworkError
        ⟨ErrClass.generic, "AbortError", "abort", none, none, none, none, none, 0⟩ = true ∧
     shouldRetry
        ⟨ErrClass.generic, "AbortError", "abort", none, none, none, none, none, 0⟩ = true) :=
  ⟨(C8_transport_failures_retryable "Error" "reset" "ECONNRESET" (by decide)).1,
   ((C8_transport_failures_retryable "Error" "timeout" "ETIMEDOUT" (by decide)).1).1,
   ((C8_transport_failures_retryable "Error" "dns" "EAI_AGAIN" (by decide)).1).1,
   (C8_transport_failures_retryable "Error" "abort" "ECONNRESET" (by decide)).2.1 none⟩

/-! ## Helper lemmas for the rate limiter -/

theorem decayedScore_at_lastUpdated (tier : RateLimitTier) (s now : ℚ)
    (b : Option ℚ) (hd : 0 < tier.decayTimeMs) (hs : 0 ≤ s) :
    decayedScore tier ⟨s, now, b⟩ now = s := by
  unfold decayedScore
  simp only
  rw [sub_self]
  rw [if_neg (not_le.mpr hd), sub_zero,
    mul_div_cancel_right₀ s (ne_of_gt hd)]
  exact max_eq_right hs

theorem checkRateLimit_fresh_record (tier : RateLimitTier) (st : RLState)
    (key : String) (isWrite : Bool) (now s : ℚ) (hs : 0 ≤ s)
    (hd : 0 < tier.decayTimeMs) (h : mapGet st key = some ⟨s, now, none⟩) :
    checkRateLimit tier st key isWrite now =
      (if tier.maxScore < s + callCost tier isWrite then
        (RLResult.rateLimited tier.blockTimeMs,
         mapSet st key ⟨s, now, some (now + tier.blockTimeMs)⟩)
      else
        (RLResult.allowed,
         mapSet st key ⟨s + callCost tier isWrite, now, none⟩)) := by
  unfold checkRateLimit
  rw [h]
  simp only [Option.getD_some]
  rw [decayedScore_at_lastUpdated tier s now none hd hs]

theorem checkRateLimit_empty (tier : RateLimitTier) (key : String)
    (isWrite : Bool) (now : ℚ) (hd : 0 < tier.decayTimeMs)
    (hallow : ¬ tier.maxScore < callCost tier isWrite) :
    checkRateLimit tier [] key isWrite now =
      (RLResult.allowed, [(key, ⟨callCost tier isWrite, now, none⟩)]) := by
  unfold checkRateLimit
  simp only [mapGet, Option.getD_none]
  rw [decayedScore_at_lastUpdated tier 0 now none hd le_rfl]
  rw [zero_add, if_neg hallow]
  rfl

/-- After `n` read checks (`1 ≤ n ≤ maxScore` in read-score units, for
the development tier) the stored score is exactly `n`. -/
theorem stateAfterReads_formula (key : String) (now : ℚ) (n : Nat)
    (hn : n + 1 ≤ 60) :
    stateAfterReads DEVELOPMENT_TIER key now (n + 1) =
      [(key, ⟨(n + 1 : ℚ), now, none⟩)] := by
  induction n with
  | zero =>
      show (checkRateLimit DEVELOPMENT_TIER
        (stateAfterReads DEVELOPMENT_TIER key now 0) key false now).2 = _
      rw [show stateAfterReads DEVELOPMENT_TIER key now 0 = [] from rfl]
      rw [checkRateLimit_empty DEVELOPMENT_TIER key false now
        (by norm_num [DEVELOPMENT_TIER])
        (by norm_num [DEVELOPMENT_TIER, callCost])]
      norm_num [DEVELOPMENT_TIER, callCost]
  | succ m ih =>
      have hm : m + 1 ≤ 60 := by omega
      show (checkRateLimit DEVELOPMENT_TIER
        (stateAfterReads DEVELOPMENT_TIER key now (m + 1)) key false now).2 = _
      rw [ih hm]
      rw [checkRateLimit_fresh_record DEVELOPMENT_TIER _ key false now
        ((m + 1 : ℚ)) (by positivity) (by norm_num [DEVELOPMENT_TIER])
        (by simp [mapGet])]
      have hm58 : (m : ℚ) ≤ 58 := by exact_mod_cast (by omega : m ≤ 58)
      have hlt : ¬ DEVELOPMENT_TIER.maxScore <
          (m + 1 : ℚ) + callCost DEVELOPMENT_TIER false := by
        simp only [DEVELOPMENT_TIER, callCost, if_neg Bool.false_ne_true]
        norm_num
        linarith
      rw [if_neg hlt]
      simp only [mapSet, if_pos rfl]
      have hsc : (m : ℚ) + 1 + callCost DEVELOPMENT_TIER false =
          ((m + 1 : Nat) : ℚ) + 1 := by
        simp only [callCost, DEVELOPMENT_TIER, if_neg Bool.false_ne_true]
        push_cast
        ring
      rw [hsc]
      simp

/-! ## Claim theorems: rate limiter (C4, C7) and orchestrator (C6) -/

/-- Claim C4 (spec-modelled rate limiter): with the development tier
(maxScore 60, read score 1) the first 60 read checks on a fresh key all
succeed and the 61st is rejected with RateLimited; in general, for an
unblocked record read at its own `lastUpdated` instant, a check landing
at `score ≤ maxScore` (so exactly at the limit too) is allowed and only
a check pushing strictly over `maxScore` is rejected. -/
theorem C4_development_tier_budget :
    (∀ n : Nat, n < 60 →
      (checkRateLimit DEVELOPMENT_TIER
        (stateAfterReads DEVELOPMENT_TIER "acct" 0 n) "acct" false 0).1 =
        RLResult.allowed) ∧
    (checkRateLimit DEVELOPMENT_TIER
        (stateAfterReads DEVELOPMENT_TIER "acct" 0 60) "acct" false 0).1 =
      RLResult.rateLimited DEVELOPMENT_TIER.blockTimeMs ∧
    (∀ (tier : RateLimitTier) (st : RLState) (key : String) (isWrite : Bool)
        (now s : ℚ), 0 ≤ s → 0 < tier.decayTimeMs →
        mapGet st key = some ⟨s, now, none⟩ →
        (s + callCost tier isWrite ≤ tier.maxScore →
          (checkRateLimit tier st key isWrite now).1 = RLResult.allowed) ∧
        (tier.maxScore < s + callCost tier isWrite →
          (checkRateLimit tier st key isWrite now).1 =
            RLResult.rateLimited tier.blockTimeMs)) := by
  refine ⟨?_, ?_, ?_⟩
  · intro n hn
    match n, hn with
    | 0, _ =>
        rw [show stateAfterReads DEVELOPMENT_TIER "acct" 0 0 = [] from rfl]
        rw [checkRateLimit_empty DEVELOPMENT_TIER "acct" false 0
          (by norm_num [DEVELOPMENT_TIER])
          (by norm_num [DEVELOPMENT_TIER, callCost])]
    | m + 1, hn =>
        rw [stateAfterReads_formula "acct" 0 m (by omega)]
        rw [checkRateLimit_fresh_record DEVELOPMENT_TIER _ "acct" false 0
          ((m + 1 : ℚ)) (by positivity) (by norm_num [DEVELOPMENT_TIER])
          (by simp [mapGet])]
        have hm58 : (m : ℚ) ≤ 58 := by exact_mod_cast (by omega : m ≤ 58)
        have : ¬ DEVELOPMENT_TIER.maxScore <
            (m + 1 : ℚ) + callCost DEVELOPMENT_TIER false := by
          simp only [DEVELOPMENT_TIER, callCost, if_neg Bool.false_ne_true]
          norm_num
          linarith
        rw [if_neg this]
  · rw [show (60 : Nat) = 59 + 1 from rfl,
      stateAfterReads_formula "acct" 0 59 (by omega)]
    rw [checkRateLimit_fresh_record DEVELOPMENT_TIER _ "acct" false 0
      ((59 + 1 : ℚ)) (by norm_num) (by norm_num [DEVELOPMENT_TIER])
      (by simp [mapGet])]
    have : DEVELOPMENT_TIER.maxScore <
        (59 + 1 : ℚ) + callCost DEVELOPMENT_TIER false := by
      norm_num [DEVELOPMENT_TIER, callCost]
    rw [if_pos this]
  · intro tier st key isWrite now s hs hd h
    rw [checkRateLimit_fresh_record tier st key isWrite now s hs hd h]
    constructor
    · intro hle
      rw [if_neg (not_lt.mpr hle)]
    · intro hgt
      rw [if_pos hgt]

/-- Witness for C4: the development tier at the exact limit — a record
at score 59 admits one more read (landing exactly at 60), a record at
score 60 rejects the next read. -/
theorem C4_development_tier_budget_witness :
    (checkRateLimit DEVELOPMENT_TIER [("a", ⟨59, 0, none⟩)] "a" false 0).1 =
      RLResult.allowed ∧
    (checkRateLimit DEVELOPMENT_TIER [("a", ⟨60, 0, none⟩)] "a" false 0).1 =
      RLResult.rateLimited DEVELOPMENT_TIER.blockTimeMs ∧
    (checkRateLimit DEVELOPMENT_TIER
        (stateAfterReads DEVELOPMENT_TIER "acct" 0 59) "acct" false 0).1 =
      RLResult.allowed :=
  ⟨(C4_development_tier_budget.2.2 DEVELOPMENT_TIER [("a", ⟨59, 0, none⟩)]
      "a" false 0 59 (by norm_num) (by norm_num [DEVELOPMENT_TIER])
      (by simp [mapGet])).1 (by norm_num [DEVELOPMENT_TIER, callCost]),
   (C4_development_tier_budget.2.2 DEVELOPMENT_TIER [("a", ⟨60, 0, none⟩)]
      "a" false 0 60 (by norm_num) (by norm_num [DEVELOPMENT_TIER])
      (by simp [mapGet])).2 (by norm_num [DEVELOPMENT_TIER, callCost]),
   C4_development_tier_budget.1 59 (by omega)⟩

theorem checkRateLimit_frame (tier : RateLimitTier) (st : RLState)
    (A : String) (w : Bool) (t : ℚ) (B : String) (hne : A ≠ B) :
    mapGet (checkRateLimit tier st A w t).2 B = mapGet st B := by
  unfold checkRateLimit
  dsimp only
  split <;> (try split) <;> (try split) <;>
    first
      | rfl
      | exact mapGet_mapSet_ne st A B _ hne

/-- Claim C7 (spec-modelled rate limiter): per-account isolation — any
sequence of checks against account A leaves account B's stored record,
current score, remaining capacity and blocked flag unchanged, for every
B ≠ A. -/
theorem C7_account_isolation (tier : RateLimitTier) (A B : String)
    (hne : A ≠ B) (ops : List (Bool × ℚ)) (st : RLState) (now : ℚ) :
    mapGet (applyChecks tier A ops st) B = mapGet st B ∧
    getCurrentScore tier (applyChecks tier A ops st) B now =
      getCurrentScore tier st B now ∧
    getRemainingCapacity tier (applyChecks tier A ops st) B now =
      getRemainingCapacity tier st B now ∧
    isAccountBlocked (applyChecks tier A ops st) B now =
      isAccountBlocked st B now := by
  have hget : mapGet (applyChecks tier A ops st) B = mapGet st B := by
    induction ops generalizing st with
    | nil => rfl
    | cons hd tl ih =>
        calc mapGet (applyChecks tier A (hd :: tl) st) B
            = mapGet (applyChecks tier A tl
                (checkRateLimit tier st A hd.1 hd.2).2) B := rfl
          _ = mapGet (checkRateLimit tier st A hd.1 hd.2).2 B := ih _
          _ = mapGet st B := checkRateLimit_frame tier st A hd.1 hd.2 B hne
  refine ⟨hget, ?_, ?_, ?_⟩
  · unfold getCurrentScore
    rw [hget]
  · unfold getRemainingCapacity getCurrentScore
    rw [hget]
  · unfold isAccountBlocked
    rw [hget]

/-- Witness for C7: exhausting account `"A"` with 61 read checks does
not change account `"B"`'s absent record. -/
theorem C7_account_isolation_witness :
    mapGet (applyChecks DEVELOPMENT_TIER "A"
      (List.replicate 61 (false, (0 : ℚ))) []) "B" = mapGet ([] : RLState) "B" :=
  (C7_account_isolation DEVELOPMENT_TIER "A" "B" (by decide)
    (List.replicate 61 (false, (0 : ℚ))) [] 0).1

/-- Claim C6: a RateLimited rejection raised by the rate limiter's
pre-call check propagates directly to the caller of `makeRequest` with
zero attempts of the wrapped operation, even though such an error would
be retryable inside the retry loop. -/
theorem C6_rate_limit_not_retried {α : Type} (tier : RateLimitTier)
    (st : RLState) (acct : String) (isWrite : Bool) (now : ℚ)
    (op : Nat → Except JsError α) (maxRetriesOpt : Option Nat)
    (retryMs : ℚ) (st2 : RLState)
    (h : checkRateLimit tier st acct isWrite now =
      (RLResult.rateLimited retryMs, st2)) :
    makeRequest tier st (some acct) isWrite now op maxRetriesOpt =
      (⟨Except.error (mkRateLimitError "Rate limit exceeded" retryMs), 0⟩, st2) ∧
    shouldRetry (mkRateLimitError "Rate limit exceeded" retryMs) = true := by
  constructor
  · have hred : makeRequest tier st (some acct) isWrite now op maxRetriesOpt =
        match checkRateLimit tier st acct isWrite now with
        | (RLResult.rateLimited r2, st3) =>
            (⟨Except.error (mkRateLimitError "Rate limit exceeded" r2), 0⟩, st3)
        | (RLResult.allowed, st3) => (retryWithBackoff op maxRetriesOpt, st3) :=
      rfl
    rw [hred, h]
  · simp [shouldRetry, mkRateLimitError]

/-- Witness for C6: an exhausted development-tier account (score 60)
rejects a read; `makeRequest` forwards the rejection with zero
attempts made. -/
theorem C6_rate_limit_not_retried_witness :
    makeRequest DEVELOPMENT_TIER [("a", ⟨60, 0, none⟩)] (some "a") false 0
        (fun _ => Except.ok (0 : Nat)) none =
      (⟨Except.error (mkRateLimitError "Rate limit exceeded"
          DEVELOPMENT_TIER.blockTimeMs), 0⟩,
       [("a", ⟨60, 0, some DEVELOPMENT_TIER.blockTimeMs⟩)]) ∧
    shouldRetry (mkRateLimitError "Rate limit exceeded"
        DEVELOPMENT_TIER.blockTimeMs) = true :=
  C6_rate_limit_not_retried DEVELOPMENT_TIER [("a", ⟨60, 0, none⟩)] "a"
    false 0 (fun _ => Except.ok (0 : Nat)) none
    DEVELOPMENT_TIER.blockTimeMs [("a", ⟨60, 0, some DEVELOPMENT_TIER.blockTimeMs⟩)]
    (by
      rw [checkRateLimit_fresh_record DEVELOPMENT_TIER _ "a" false 0 60
        (by norm_num) (by norm_num [DEVELOPMENT_TIER]) (by simp [mapGet])]
      rw [if_pos (by norm_num [DEVELOPMENT_TIER, callCost])]
      simp [mapSet])

/-! ## Helper lemmas for cache eviction (C9) -/

theorem mem_of_mem_mapDelete {β : Type} (c : List (String × β)) (k : String)
    (p : String × β) (h : p ∈ mapDelete c k) : p ∈ c := by
  induction c with
  | nil => simp [mapDelete] at h
  | cons hd tl ih =>
      by_cases hk : hd.1 = k
      · right
        simpa [mapDelete, hk] using h
      · rw [show mapDelete (hd :: tl) k = hd :: mapDelete tl k by
          simp [mapDelete, hk]] at h
        rcases List.mem_cons.mp h with h1 | h1
        · exact h1 ▸ List.mem_cons_self hd tl
        · exact List.mem_cons_of_mem hd (ih h1)

theorem mem_mapDelete_of_ne {β : Type} (c : List (String × β)) (k : String)
    (p : String × β) (hp : p ∈ c) (hne : p.1 ≠ k) : p ∈ mapDelete c k := by
  induction c with
  | nil => simp at hp
  | cons hd tl ih =>
      by_cases hk : hd.1 = k
      · rw [show mapDelete (hd :: tl) k = tl by simp [mapDelete, hk]]
        rcases List.mem_cons.mp hp with h1 | h1
        · exact absurd (h1 ▸ hk) hne
        · exact h1
      · rw [show mapDelete (hd :: tl) k = hd :: mapDelete tl k by
          simp [mapDelete, hk]]
        rcases List.mem_cons.mp hp with h1 | h1
        · exact h1 ▸ List.mem_cons_self hd _
        · exact List.mem_cons_of_mem hd (ih h1)

theorem fst_ne_of_mem_mapDelete {β : Type} (c : List (String × β)) (k : String)
    (p : String × β) (hnd : (c.map Prod.fst).Nodup) (hp : p ∈ mapDelete c k) :
    p.1 ≠ k := by
  induction c with
  | nil => simp [mapDelete] at hp
  | cons hd tl ih =>
      rw [List.map_cons, List.nodup_cons] at hnd
      by_cases hk : hd.1 = k
      · rw [show mapDelete (hd :: tl) k = tl by simp [mapDelete, hk]] at hp
        intro hpk
        exact hnd.1 (hk ▸ hpk ▸ List.mem_map_of_mem Prod.fst hp)
      · rw [show mapDelete (hd :: tl) k = hd :: mapDelete tl k by
          simp [mapDelete, hk]] at hp
        rcases List.mem_cons.mp hp with h1 | h1
        · exact h1 ▸ hk
        · exact ih hnd.2 h1

theorem nodup_mapDelete {β : Type} (c : List (String × β)) (k : String)
    (hnd : (c.map Prod.fst).Nodup) : ((mapDelete c k).map Prod.fst).Nodup := by
  induction c with
  | nil => simp [mapDelete]
  | cons hd tl ih =>
      rw [List.map_cons, List.nodup_cons] at hnd
      by_cases hk : hd.1 = k
      · simpa [mapDelete, hk] using hnd.2
      · rw [show mapDelete (hd :: tl) k = hd :: mapDelete tl k by
          simp [mapDelete, hk], List.map_cons, List.nodup_cons]
        refine ⟨fun hmem => ?_, ih hnd.2⟩
        rcases List.mem_map.mp hmem with ⟨q, hq, hqfst⟩
        exact hnd.1 (hqfst ▸ List.mem_map_of_mem Prod.fst
          (mem_of_mem_mapDelete tl k q hq))

theorem length_mapDelete_of_mem {β : Type} (c : List (String × β)) (k : String)
    (h : k ∈ c.map Prod.fst) : (mapDelete c k).length + 1 = c.length := by
  induction c with
  | nil => simp at h
  | cons hd tl ih =>
      by_cases hk : hd.1 = k
      · simp [mapDelete, hk]
      · rw [show mapDelete (hd :: tl) k = hd :: mapDelete tl k by
          simp [mapDelete, hk]]
        have : k ∈ tl.map Prod.fst := by
          rcases List.mem_map.mp h with ⟨q, hq, hqfst⟩
          rcases List.mem_cons.mp hq with h1 | h1
          · exact absurd (h1 ▸ hqfst) hk
          · exact hqfst ▸ List.mem_map_of_mem Prod.fst h1
        simpa using ih this

theorem mem_fst_mapDelete_of_ne {β : Type} (c : List (String × β))
    (k k2 : String) (h : k2 ∈ c.map Prod.fst) (hne : k2 ≠ k) :
    k2 ∈ (mapDelete c k).map Prod.fst := by
  rcases List.mem_map.mp h with ⟨q, hq, hqfst⟩
  exact hqfst ▸ List.mem_map_of_mem Prod.fst
    (mem_mapDelete_of_ne c k q hq (hqfst ▸ hne))

theorem length_foldl_mapDelete {β : Type} :
    ∀ (vs : List (String × β)) (c : List (String × β)),
    (vs.map Prod.fst).Nodup → (∀ v ∈ vs, v.1 ∈ c.map Prod.fst) →
    (vs.foldl (fun acc p => mapDelete acc p.1) c).length + vs.length = c.length := by
  intro vs
  induction vs with
  | nil => intro c _ _; simp
  | cons v tl ih =>
      intro c hnd hmem
      rw [List.map_cons, List.nodup_cons] at hnd
      have hv : v.1 ∈ c.map Prod.fst := hmem v (List.mem_cons_self v tl)
      have hrest : ∀ w ∈ tl, w.1 ∈ (mapDelete c v.1).map Prod.fst := by
        intro w hw
        refine mem_fst_mapDelete_of_ne c v.1 w.1
          (hmem w (List.mem_cons_of_mem v hw)) (fun he => ?_)
        exact hnd.1 (he ▸ List.mem_map_of_mem Prod.fst hw)
      have hlen := length_mapDelete_of_mem c v.1 hv
      have := ih (mapDelete c v.1) hnd.2 hrest
      simp only [List.foldl_cons, List.length_cons]
      omega

theorem mem_of_mem_foldl_mapDelete {β : Type} :
    ∀ (vs : List (String × β)) (c : List (String × β)) (p : String × β),
    p ∈ vs.foldl (fun acc q => mapDelete acc q.1) c → p ∈ c := by
  intro vs
  induction vs with
  | nil => intro c p hp; simpa using hp
  | cons v tl ih =>
      intro c p hp
      simp only [List.foldl_cons] at hp
      exact mem_of_mem_mapDelete c v.1 p (ih (mapDelete c v.1) p hp)

theorem mem_foldl_mapDelete_of_not_key {β : Type} :
    ∀ (vs : List (String × β)) (c : List (String × β)) (p : String × β),
    p ∈ c → p.1 ∉ vs.map Prod.fst →
    p ∈ vs.foldl (fun acc q => mapDelete acc q.1) c := by
  intro vs
  induction vs with
  | nil => intro c p hp _; simpa using hp
  | cons v tl ih =>
      intro c p hp hnk
      simp only [List.map_cons, List.mem_cons, not_or] at hnk
      simp only [List.foldl_cons]
      exact ih (mapDelete c v.1) p (mem_mapDelete_of_ne c v.1 p hp hnk.1) hnk.2

theorem not_key_of_mem_foldl_mapDelete {β : Type} :
    ∀ (vs : List (String × β)) (c : List (String × β)) (p : String × β),
    (c.map Prod.fst).Nodup →
    p ∈ vs.foldl (fun acc q => mapDelete acc q.1) c →
    p.1 ∉ vs.map Prod.fst := by
  intro vs
  induction vs with
  | nil => intro c p _ _; simp
  | cons v tl ih =>
      intro c p hnd hp
      simp only [List.foldl_cons] at hp
      simp only [List.map_cons, List.mem_cons, not_or]
      constructor
      · exact fst_ne_of_mem_mapDelete c v.1 p hnd
          (mem_of_mem_foldl_mapDelete tl (mapDelete c v.1) p hp)
      · exact ih (mapDelete c v.1) p (nodup_mapDelete c v.1 hnd) hp

theorem entry_unique_of_nodup_keys {β : Type} (c : List (String × β))
    (p q : String × β) (hnd : (c.map Prod.fst).Nodup) (hp : p ∈ c) (hq : q ∈ c)
    (hfst : p.1 = q.1) : p = q := by
  induction c with
  | nil => simp at hp
  | cons hd tl ih =>
      rw [List.map_cons, List.nodup_cons] at hnd
      rcases List.mem_cons.mp hp with h1 | h1 <;>
        rcases List.mem_cons.mp hq with h2 | h2
      · exact h1.trans h2.symm
      · exact absurd (h1 ▸ hfst ▸ List.mem_map_of_mem Prod.fst h2) hnd.1
      · exact absurd (h2 ▸ hfst.symm ▸ List.mem_map_of_mem Prod.fst h1) hnd.1
      · exact ih hnd.2 h1 h2

theorem length_mapSet_le {β : Type} (c : List (String × β)) (k : String)
    (e : β) : (mapSet c k e).length ≤ c.length + 1 := by
  induction c with
  | nil => simp [mapSet]
  | cons hd tl ih =>
      by_cases hk : hd.1 = k
      · simp [mapSet, hk]
      · rw [show mapSet (hd :: tl) k e = hd :: mapSet tl k e by
          simp [mapSet, hk]]
        simpa using ih

theorem mem_of_mem_mapSet_ne {β : Type} (c : List (String × β)) (k : String)
    (e : β) (p : String × β) (hp : p ∈ mapSet c k e) (hne : p.1 ≠ k) :
    p ∈ c := by
  induction c with
  | nil =>
      rw [show mapSet ([] : List (String × β)) k e = [(k, e)] from rfl] at hp
      rcases List.mem_singleton.mp hp with h1
      exact absurd (congrArg Prod.fst h1) hne
  | cons hd tl ih =>
      by_cases hk : hd.1 = k
      · rw [show mapSet (hd :: tl) k e = (k, e) :: tl by simp [mapSet, hk]] at hp
        rcases List.mem_cons.mp hp with h1 | h1
        · exact absurd (congrArg Prod.fst h1) hne
        · exact List.mem_cons_of_mem hd h1
      · rw [show mapSet (hd :: tl) k e = hd :: mapSet tl k e by
          simp [mapSet, hk]] at hp
        rcases List.mem_cons.mp hp with h1 | h1
        · exact h1 ▸ List.mem_cons_self hd tl
        · exact List.mem_cons_of_mem hd (ih h1)

theorem mem_mapSet_of_mem_ne {β : Type} (c : List (String × β)) (k : String)
    (e : β) (p : String × β) (hp : p ∈ c) (hne : p.1 ≠ k) :
    p ∈ mapSet c k e := by
  induction c with
  | nil => simp at hp
  | cons hd tl ih =>
      by_cases hk : hd.1 = k
      · rw [show mapSet (hd :: tl) k e = (k, e) :: tl by simp [mapSet, hk]]
        rcases List.mem_cons.mp hp with h1 | h1
        · exact absurd (h1 ▸ hk) hne
        · exact List.mem_cons_of_mem _ h1
      · rw [show mapSet (hd :: tl) k e = hd :: mapSet tl k e by
          simp [mapSet, hk]]
        rcases List.mem_cons.mp hp with h1 | h1
        · exact h1 ▸ List.mem_cons_self hd _
        · exact List.mem_cons_of_mem hd (ih h1)

instance : IsTotal (String × CacheEntry) olderFirst :=
  ⟨fun a b => Nat.le_total a.2.createdAt b.2.createdAt⟩

instance : IsTrans (String × CacheEntry) olderFirst :=
  ⟨fun _ _ _ hab hbc => Nat.le_trans hab hbc⟩

theorem cacheSet_full (c : IdemCache) (k : String) (v : JsValue)
    (op2 : String) (now ttl : Nat) (h : MAX_CACHE_SIZE ≤ c.length) :
    cacheSet c k v op2 now ttl =
      mapSet (evictOldest c (MAX_CACHE_SIZE / 10)) k
        ⟨v, now + ttl, now, op2⟩ := by
  unfold cacheSet
  rw [if_pos h]

theorem cacheSet_not_full (c : IdemCache) (k : String) (v : JsValue)
    (op2 : String) (now ttl : Nat) (h : ¬ MAX_CACHE_SIZE ≤ c.length) :
    cacheSet c k v op2 now ttl = mapSet c k ⟨v, now + ttl, now, op2⟩ := by
  unfold cacheSet
  rw [if_neg h]

/-- The eviction victims are taken from the cache, with distinct keys,
and there are exactly `min count c.length` of them. -/
theorem evictOldest_facts (c : IdemCache) (count : Nat)
    (hnd : (c.map Prod.fst).Nodup) :
    (evictOldest c count).length + min count c.length = c.length := by
  unfold evictOldest
  set victims := (List.insertionSort olderFirst c).take count with hvic
  have hperm : List.Perm (List.insertionSort olderFirst c) c :=
    List.perm_insertionSort olderFirst c
  have hsortnd : ((List.insertionSort olderFirst c).map Prod.fst).Nodup :=
    ((hperm.map Prod.fst).nodup_iff).mpr hnd
  have hvnd : (victims.map Prod.fst).Nodup :=
    List.Nodup.sublist ((List.take_sublist count _).map Prod.fst) hsortnd
  have hvmem : ∀ v ∈ victims, v.1 ∈ c.map Prod.fst := by
    intro v hv
    exact List.mem_map_of_mem Prod.fst
      (hperm.subset (List.take_subset count _ hv))
  have hvlen : victims.length = min count c.length := by
    rw [hvic, List.length_take, hperm.length_eq]
  rw [← hvlen]
  exact length_foldl_mapDelete victims c hvnd hvmem

/-! ## Claim theorem: cache capacity (C9) -/

/-- Claim C9: over caches with distinct keys (the Map invariant), an
insert always succeeds and stores the new entry under its key; a cache
within the capacity bound of 10000 stays within it after an insert; an
insert into a cache exactly at capacity first evicts 10% of the maximum
(1000 entries), ending at no more than 9001 entries; and at capacity
the evicted entries are precisely ones with the oldest `createdAt`:
every evicted entry is at least as old as every surviving one. -/
theorem C9_capacity_and_eviction (c : IdemCache) (k : String) (v : JsValue)
    (op2 : String) (now ttl : Nat) (hnd : (c.map Prod.fst).Nodup) :
    mapGet (cacheSet c k v op2 now ttl) k = some ⟨v, now + ttl, now, op2⟩ ∧
    (c.length ≤ MAX_CACHE_SIZE →
      (cacheSet c k v op2 now ttl).length ≤ MAX_CACHE_SIZE) ∧
    (c.length = MAX_CACHE_SIZE →
      (cacheSet c k v op2 now ttl).length ≤
        MAX_CACHE_SIZE - MAX_CACHE_SIZE / 10 + 1) ∧
    (c.length = MAX_CACHE_SIZE →
      ∀ p q : String × CacheEntry, p ∈ c → q ∈ c → p.1 ≠ k → q.1 ≠ k →
        p ∈ cacheSet c k v op2 now ttl → q ∉ cacheSet c k v op2 now ttl →
        q.2.createdAt ≤ p.2.createdAt) := by
  refine ⟨mapGet_cacheSet_self c k v op2 now ttl, ?_, ?_, ?_⟩
  · intro hle
    by_cases hfull : MAX_CACHE_SIZE ≤ c.length
    · have hceq : c.length = MAX_CACHE_SIZE := le_antisymm hle hfull
      rw [cacheSet_full c k v op2 now ttl hfull]
      have hev := evictOldest_facts c (MAX_CACHE_SIZE / 10) hnd
      have hlen := length_mapSet_le (evictOldest c (MAX_CACHE_SIZE / 10)) k
        (⟨v, now + ttl, now, op2⟩ : CacheEntry)
      rw [hceq] at hev
      simp only [MAX_CACHE_SIZE] at hev hlen ⊢
      omega
    · rw [cacheSet_not_full c k v op2 now ttl hfull]
      have hlen := length_mapSet_le c k (⟨v, now + ttl, now, op2⟩ : CacheEntry)
      omega
  · intro hceq
    rw [cacheSet_full c k v op2 now ttl (le_of_eq hceq.symm)]
    have hev := evictOldest_facts c (MAX_CACHE_SIZE / 10) hnd
    have hlen := length_mapSet_le (evictOldest c (MAX_CACHE_SIZE / 10)) k
      (⟨v, now + ttl, now, op2⟩ : CacheEntry)
    rw [hceq] at hev
    simp only [MAX_CACHE_SIZE] at hev hlen ⊢
    omega
  · intro hceq p q hpc hqc hpk hqk hpin hqout
    have hfull : MAX_CACHE_SIZE ≤ c.length := le_of_eq hceq.symm
    rw [cacheSet_full c k v op2 now ttl hfull] at hpin hqout
    have hp1 : p ∈ evictOldest c (MAX_CACHE_SIZE / 10) :=
      mem_of_mem_mapSet_ne _ k _ p hpin hpk
    have hq1 : q ∉ evictOldest c (MAX_CACHE_SIZE / 10) := fun hq1 =>
      hqout (mem_mapSet_of_mem_ne _ k _ q hq1 hqk)
    set victims := (List.insertionSort olderFirst c).take (MAX_CACHE_SIZE / 10)
      with hvic
    have hperm : List.Perm (List.insertionSort olderFirst c) c :=
      List.perm_insertionSort olderFirst c
    have hq2 : q.1 ∈ victims.map Prod.fst := by
      by_contra hq2
      exact hq1 (mem_foldl_mapDelete_of_not_key victims c q hqc hq2)
    have hqvic : q ∈ victims := by
      rcases List.mem_map.mp hq2 with ⟨w, hw, hwfst⟩
      have hwc : w ∈ c := hperm.subset (List.take_subset _ _ hw)
      exact (entry_unique_of_nodup_keys c w q hnd hwc hqc hwfst) ▸ hw
    have hp2 : p.1 ∉ victims.map Prod.fst :=
      not_key_of_mem_foldl_mapDelete victims c p hnd hp1
    have hpsort : p ∈ List.insertionSort olderFirst c := hperm.mem_iff.mpr hpc
    have hpdrop : p ∈ (List.insertionSort olderFirst c).drop
        (MAX_CACHE_SIZE / 10) := by
      rcases List.mem_append.mp ((List.take_append_drop (MAX_CACHE_SIZE / 10)
          (List.insertionSort olderFirst c)) ▸ hpsort) with h1 | h1
      · exact absurd (List.mem_map_of_mem Prod.fst h1) hp2
      · exact h1
    have hsorted : List.Sorted olderFirst (List.insertionSort olderFirst c) :=
      List.sorted_insertionSort olderFirst c
    exact hsorted.rel_of_mem_take_of_mem_drop hqvic hpdrop

/-- Witness for C9: a two-entry cache with distinct keys accepts a
third entry and stays far below the capacity bound. -/
theorem C9_capacity_and_eviction_witness :
    mapGet (cacheSet [("a", ⟨JsValue.num 1, 9, 1, "o"⟩),
        ("b", ⟨JsValue.num 2, 9, 2, "o"⟩)] "k" (JsValue.num 3) "op" 5 10) "k" =
      some ⟨JsValue.num 3, 15, 5, "op"⟩ ∧
    (cacheSet [("a", ⟨JsValue.num 1, 9, 1, "o"⟩),
        ("b", ⟨JsValue.num 2, 9, 2, "o"⟩)] "k" (JsValue.num 3) "op" 5 10).length ≤
      MAX_CACHE_SIZE :=
  ⟨(C9_capacity_and_eviction [("a", ⟨JsValue.num 1, 9, 1, "o"⟩),
      ("b", ⟨JsValue.num 2, 9, 2, "o"⟩)] "k" (JsValue.num 3) "op" 5 10
      (by decide)).1,
   (C9_capacity_and_eviction [("a", ⟨JsValue.num 1, 9, 1, "o"⟩),
      ("b", ⟨JsValue.num 2, 9, 2, "o"⟩)] "k" (JsValue.num 3) "op" 5 10
      (by decide)).2.1 (by decide)⟩

end MetaMcp
